import Mathlib

/-!
Shallow embedding of `src/consumers/project_consumer_pinkston.py`.

The program is a single-threaded consumer: each queue message is a JSON
text; `process_message` parses it, appends to two module-level history
lists, updates analytics counters, redraws a bar chart, and, when the
wall-clock time since `window_start` has reached the configured window
size, prints an analytics report and resets `window_messages` and
`window_start`.

Modelling conventions:
 - Python floats are modelled as `ℚ` (the program only adds, divides and
   compares temperatures and times; no float-specific behaviour is claimed).
 - `json.loads` + `data.get` are modelled by the `Msg` type: a message is
   either `malformed` (JSONDecodeError) or an object carrying optional
   `timestamp` / `temperature` fields (`data.get` yields `None` for an
   absent or null field).
 - A temperature value may be a number or a string (`TempVal`).  The
   comparison `temperature >= threshold` on a string raises `TypeError`
   in Python; that raising path is modelled explicitly (the generic
   `except` at line 202 catches it, so `process_message` itself is total).
 - Wall-clock reads (`time.time()` at lines 189 and 198) become the
   explicit parameters `now` (elapsed check) and `now2` (baseline reset).
 - `get_high_temp_threshold()` / `get_rolling_window_size()` re-read the
   environment at each call; the environment is constant during a run, so
   both become the fixed parameters `threshold` and `window_size`.
 - Console / log output carries no state; the analytics report printed at
   lines 192-195 is reified as the `Report` in `StepOutput`, and whether
   the chart redraw completed as `chart_drawn`.
-/

/-- A temperature value as found in the decoded JSON: a number, or a
non-numeric value such as a string (no validation is performed on it). -/
inductive TempVal where
  | num (q : ℚ)
  | str (s : String)
deriving Repr, DecidableEq

/-- Result of `json.loads` + field extraction on one raw message:
either the text is not valid JSON, or it decodes to an object whose
`timestamp` / `temperature` fields may each be absent (or null). -/
inductive Msg where
  | malformed
  | obj (timestamp : Option String) (temperature : Option TempVal)
deriving Repr, DecidableEq

/-- The module-level mutable state of the consumer (lines 78-89), plus the
`rolling_window` deque created in `main` (line 229) and passed to
`process_message`, which never touches it. -/
structure ConsumerState where
  timestamps : List String
  temperatures : List TempVal
  total_messages : ℕ
  high_temps_sum : ℚ
  high_temp_count : ℕ
  window_messages : ℕ
  window_start : ℚ
  rolling_window : List TempVal
deriving Repr, DecidableEq

/-- Contents of one printed analytics block (lines 192-195). -/
structure Report where
  total_messages : ℕ
  avg_high_temp : ℚ
deriving Repr, DecidableEq

/-- Observable effects of one `process_message` call: the analytics report,
if one was printed, and whether the chart redraw ran to completion. -/
structure StepOutput where
  report : Option Report
  chart_drawn : Bool
deriving Repr, DecidableEq

/-- Initial module-level state (lines 78-89): empty histories, zero
counters, `window_start = time.time()` at import time (parameter `t0`),
and the empty deque created in `main`. -/
def initialState (t0 : ℚ) : ConsumerState :=
  { timestamps := []
    temperatures := []
    total_messages := 0
    high_temps_sum := 0
    high_temp_count := 0
    window_messages := 0
    window_start := t0
    rolling_window := [] }

/-- Line 191: `high_temps_sum / high_temp_count if high_temp_count else 0.0`
— the average reported in the analytics block. -/
def avg_high_temp (s : ConsumerState) : ℚ :=
  if s.high_temp_count ≠ 0 then s.high_temps_sum / s.high_temp_count else 0

/-- Line 128 of `update_chart`:
`["red" if temp >= high_temp_threshold else "blue" for temp in temperatures]`.
The comprehension compares each stored temperature with the threshold left
to right; comparing a non-numeric value raises `TypeError`, modelled as
`none`. -/
def bar_colors (threshold : ℚ) : List TempVal → Option (List String)
  | [] => some []
  | TempVal.num q :: rest =>
      (bar_colors threshold rest).map
        (fun cs => (if threshold ≤ q then "red" else "blue") :: cs)
  | TempVal.str _ :: _ => none

/-- Lines 152-203, `process_message`, as a state transformer.  Exceptions
(JSONDecodeError at line 200, `TypeError` from the `>=` at line 181 or from
the redraw at line 128, caught at line 202) end the call early without
raising to the caller; the state mutations already performed remain. -/
def process_message (msg : Msg) (threshold window_size now now2 : ℚ)
    (s : ConsumerState) : ConsumerState × StepOutput :=
  match msg with
  | Msg.malformed => (s, ⟨none, false⟩)
  | Msg.obj timestamp temperature =>
    match timestamp, temperature with
    | some ts, some temp =>
      -- lines 176-180: append to both histories, bump both counters
      let s1 : ConsumerState :=
        { s with
          timestamps := s.timestamps ++ [ts]
          temperatures := s.temperatures ++ [temp]
          total_messages := s.total_messages + 1
          window_messages := s.window_messages + 1 }
      match temp with
      | TempVal.str _ => (s1, ⟨none, false⟩)  -- line 181 raises TypeError
      | TempVal.num q =>
        -- lines 181-183
        let s2 : ConsumerState :=
          if threshold ≤ q then
            { s1 with
              high_temps_sum := s1.high_temps_sum + q
              high_temp_count := s1.high_temp_count + 1 }
          else s1
        -- line 186: update_chart; raises if any stored value is non-numeric
        match bar_colors threshold s2.temperatures with
        | none => (s2, ⟨none, false⟩)
        | some _ =>
          -- lines 189-198
          let elapsed := now - s2.window_start
          if window_size ≤ elapsed then
            ({ s2 with window_messages := 0, window_start := now2 },
             ⟨some ⟨s2.total_messages, avg_high_temp s2⟩, true⟩)
          else
            (s2, ⟨none, true⟩)
    | _, _ => (s, ⟨none, false⟩)  -- lines 172-174: invalid message, return

/-- One iteration input of the driver loop: the decoded message and the two
wall-clock reads made while processing it. -/
structure StepIn where
  msg : Msg
  now : ℚ
  now2 : ℚ
deriving Repr, DecidableEq

/-- The consume loop of `main` (lines 237-240): feed each message to
`process_message` in order, collecting the observable outputs. -/
def runConsumer (threshold window_size : ℚ) :
    List StepIn → ConsumerState → ConsumerState × List StepOutput
  | [], s => (s, [])
  | i :: rest, s =>
    let p := process_message i.msg threshold window_size i.now i.now2 s
    let r := runConsumer threshold window_size rest p.1
    (r.1, p.2 :: r.2)

/-- A message is accepted when it decodes to an object with both fields
present (the check at line 172 passes). -/
def Msg.accepted : Msg → Prop
  | Msg.obj (some _) (some _) => True
  | _ => False

instance : DecidablePred Msg.accepted := by
  intro m
  cases m with
  | malformed => exact .isFalse (fun h => h)
  | obj ts temp =>
    cases ts with
    | none => exact .isFalse (fun h => h)
    | some a =>
      cases temp with
      | none => exact .isFalse (fun h => h)
      | some t => exact .isTrue trivial

/-- A convenient description of a fully valid input: both fields present and
the temperature numeric. -/
structure ValidIn where
  ts : String
  temp : ℚ
  now : ℚ
  now2 : ℚ
deriving Repr, DecidableEq

/-- Embed a valid input as a raw step input. -/
def ValidIn.toStep (v : ValidIn) : StepIn :=
  ⟨Msg.obj (some v.ts) (some (TempVal.num v.temp)), v.now, v.now2⟩

/-- Number of high-temperature readings in a list, for a threshold. -/
def highCount (threshold : ℚ) (qs : List ℚ) : ℕ :=
  (qs.filter (fun q => threshold ≤ q)).length

/-- Sum of the high-temperature readings in a list, for a threshold. -/
def highSum (threshold : ℚ) (qs : List ℚ) : ℚ :=
  (qs.filter (fun q => threshold ≤ q)).sum

/-- Whether a stored temperature value is numeric. -/
def TempVal.isNum : TempVal → Bool
  | TempVal.num _ => true
  | TempVal.str _ => false

/-- The end-to-end scenario of the spec: three valid readings 80, 95, 100
fed with threshold 90 and window size 5; the clock starts at 0 and the
third message arrives after the window has elapsed. -/
def scenarioInputs : List StepIn :=
  [⟨Msg.obj (some "t1") (some (TempVal.num 80)), 1, 1⟩,
   ⟨Msg.obj (some "t2") (some (TempVal.num 95)), 2, 2⟩,
   ⟨Msg.obj (some "t3") (some (TempVal.num 100)), 6, 6⟩]

section StepLemmas

/-- A message that fails JSON decoding, or whose `timestamp` or
`temperature` is absent, is a complete no-op: same state, no report, no
chart redraw (lines 172-174 and 200-203). -/
theorem process_message_rejected (m : Msg) (hm : ¬ m.accepted)
    (θ w now now2 : ℚ) (s : ConsumerState) :
    process_message m θ w now now2 s = (s, ⟨none, false⟩) := by
  cases m with
  | malformed => rfl
  | obj ts temp =>
    cases ts with
    | none => cases temp <;> rfl
    | some a =>
      cases temp with
      | none => rfl
      | some t => exact absurd trivial hm

/-- A message with both fields present but a string temperature performs
the appends and counter bumps of lines 176-180 and then stops when the
comparison at line 181 raises: sum, count, window fields and the rolling
window are untouched, no report, no chart redraw. -/
theorem process_message_str (ts sv : String) (θ w now now2 : ℚ)
    (s : ConsumerState) :
    process_message (Msg.obj (some ts) (some (TempVal.str sv))) θ w now now2 s =
      ({ s with
          timestamps := s.timestamps ++ [ts]
          temperatures := s.temperatures ++ [TempVal.str sv]
          total_messages := s.total_messages + 1
          window_messages := s.window_messages + 1 }, ⟨none, false⟩) := rfl

/-- Core effect of an accepted numeric reading on the history lists and the
lifetime accumulators, independent of whether the chart redraw succeeds or
a report fires. -/
theorem process_message_num_core (ts : String) (q : ℚ) (θ w now now2 : ℚ)
    (s : ConsumerState) :
    ((process_message (Msg.obj (some ts) (some (TempVal.num q))) θ w now now2 s).1.timestamps
       = s.timestamps ++ [ts])
    ∧ ((process_message (Msg.obj (some ts) (some (TempVal.num q))) θ w now now2 s).1.temperatures
       = s.temperatures ++ [TempVal.num q])
    ∧ ((process_message (Msg.obj (some ts) (some (TempVal.num q))) θ w now now2 s).1.total_messages
       = s.total_messages + 1)
    ∧ ((process_message (Msg.obj (some ts) (some (TempVal.num q))) θ w now now2 s).1.high_temp_count
       = s.high_temp_count + (if θ ≤ q then 1 else 0))
    ∧ ((process_message (Msg.obj (some ts) (some (TempVal.num q))) θ w now now2 s).1.high_temps_sum
       = s.high_temps_sum + (if θ ≤ q then q else 0))
    ∧ ((process_message (Msg.obj (some ts) (some (TempVal.num q))) θ w now now2 s).1.rolling_window
       = s.rolling_window) := by
  by_cases hq : θ ≤ q <;>
    simp only [process_message, hq, if_true, if_false, ite_true, ite_false] <;>
    rcases bar_colors θ (s.temperatures ++ [TempVal.num q]) with _ | cs <;>
    simp <;> split <;> simp

/-- No branch of `process_message` touches the rolling-window deque. -/
theorem process_message_rolling_window (m : Msg) (θ w now now2 : ℚ)
    (s : ConsumerState) :
    (process_message m θ w now now2 s).1.rolling_window = s.rolling_window := by
  cases m with
  | malformed => rfl
  | obj ts temp =>
    cases ts with
    | none => cases temp <;> rfl
    | some a =>
      cases temp with
      | none => rfl
      | some t =>
        cases t with
        | str sv => rfl
        | num q => exact (process_message_num_core a q θ w now now2 s).2.2.2.2.2

/-- Any accepted message (numeric or not) extends both histories by one
entry and bumps `total_messages` by one. -/
theorem process_message_accepted_counts (m : Msg) (hm : m.accepted)
    (θ w now now2 : ℚ) (s : ConsumerState) :
    ((process_message m θ w now now2 s).1.timestamps.length
       = s.timestamps.length + 1)
    ∧ ((process_message m θ w now now2 s).1.temperatures.length
       = s.temperatures.length + 1)
    ∧ ((process_message m θ w now now2 s).1.total_messages
       = s.total_messages + 1) := by
  cases m with
  | malformed => exact absurd hm (fun h => h)
  | obj ts temp =>
    cases ts with
    | none => exact absurd hm (fun h => h)
    | some a =>
      cases temp with
      | none => exact absurd hm (fun h => h)
      | some t =>
        cases t with
        | str sv => simp [process_message_str]
        | num q =>
          obtain ⟨h1, h2, h3, _⟩ := process_message_num_core a q θ w now now2 s
          simp [h1, h2, h3]

end StepLemmas

section RunLemmas

/-- A state predicate preserved by every single step is preserved by the
whole consume loop. -/
theorem runConsumer_preserve (θ w : ℚ) (P : ConsumerState → Prop)
    (hstep : ∀ (i : StepIn) (s : ConsumerState), P s →
      P (process_message i.msg θ w i.now i.now2 s).1) :
    ∀ (inputs : List StepIn) (s : ConsumerState), P s →
      P (runConsumer θ w inputs s).1 := by
  intro inputs
  induction inputs with
  | nil => intro s hs; exact hs
  | cons i rest ih =>
    intro s hs
    exact ih _ (hstep i s hs)

/-- Each step keeps `len(timestamps) = len(temperatures) = total_messages`:
the three values move together in every branch. -/
theorem process_message_preserves_lengths (i : StepIn) (θ w : ℚ)
    (s : ConsumerState)
    (hs : s.timestamps.length = s.total_messages
          ∧ s.temperatures.length = s.total_messages) :
    ((process_message i.msg θ w i.now i.now2 s).1.timestamps.length
       = (process_message i.msg θ w i.now i.now2 s).1.total_messages)
    ∧ ((process_message i.msg θ w i.now i.now2 s).1.temperatures.length
       = (process_message i.msg θ w i.now i.now2 s).1.total_messages) := by
  by_cases hm : i.msg.accepted
  · obtain ⟨h1, h2, h3⟩ :=
      process_message_accepted_counts i.msg hm θ w i.now i.now2 s
    rw [h1, h2, h3, hs.1, hs.2]
    exact ⟨rfl, rfl⟩
  · rw [process_message_rejected i.msg hm θ w i.now i.now2 s]
    exact hs

/-- Processing only accepted messages grows `total_messages` and both
history lists by exactly the number of messages. -/
theorem runConsumer_accepted_counts (θ w : ℚ) :
    ∀ (inputs : List StepIn), (∀ i ∈ inputs, i.msg.accepted) →
      ∀ (s : ConsumerState),
      ((runConsumer θ w inputs s).1.total_messages
         = s.total_messages + inputs.length)
      ∧ ((runConsumer θ w inputs s).1.timestamps.length
         = s.timestamps.length + inputs.length)
      ∧ ((runConsumer θ w inputs s).1.temperatures.length
         = s.temperatures.length + inputs.length) := by
  intro inputs
  induction inputs with
  | nil => intro _ s; exact ⟨rfl, rfl, rfl⟩
  | cons i rest ih =>
    intro hacc s
    have hi : i.msg.accepted := hacc i (List.mem_cons_self i rest)
    have hrest : ∀ j ∈ rest, j.msg.accepted :=
      fun j hj => hacc j (List.mem_cons_of_mem i hj)
    obtain ⟨h1, h2, h3⟩ :=
      process_message_accepted_counts i.msg hi θ w i.now i.now2 s
    obtain ⟨g1, g2, g3⟩ :=
      ih hrest (process_message i.msg θ w i.now i.now2 s).1
    refine ⟨?_, ?_, ?_⟩ <;>
      simp only [runConsumer, g1, g2, g3, h1, h2, h3, List.length_cons] <;> omega

/-- Processing valid numeric readings accumulates `high_temp_count` and
`high_temps_sum` over the whole run: nothing ever resets them. -/
theorem runConsumer_valid_analytics (θ w : ℚ) :
    ∀ (l : List ValidIn) (s : ConsumerState),
      ((runConsumer θ w (l.map ValidIn.toStep) s).1.high_temp_count
         = s.high_temp_count + highCount θ (l.map ValidIn.temp))
      ∧ ((runConsumer θ w (l.map ValidIn.toStep) s).1.high_temps_sum
         = s.high_temps_sum + highSum θ (l.map ValidIn.temp)) := by
  intro l
  induction l with
  | nil => intro s; exact ⟨rfl, by simp [runConsumer, highSum]⟩
  | cons v rest ih =>
    intro s
    obtain ⟨_, _, _, hc, hsum, _⟩ :=
      process_message_num_core v.ts v.temp θ w v.now v.now2 s
    obtain ⟨g1, g2⟩ := ih (process_message (Msg.obj (some v.ts)
      (some (TempVal.num v.temp))) θ w v.now v.now2 s).1
    constructor
    · simp only [List.map_cons, runConsumer, ValidIn.toStep] at g1 ⊢
      rw [g1, hc, highCount, highCount, List.filter_cons]
      by_cases hq : θ ≤ v.temp <;> simp [hq]
      all_goals omega
    · simp only [List.map_cons, runConsumer, ValidIn.toStep] at g2 ⊢
      rw [g2, hsum, highSum, highSum, List.filter_cons]
      by_cases hq : θ ≤ v.temp <;> simp [hq]
      all_goals ring

/-- When every stored temperature is numeric, the chart comprehension of
line 128 completes and yields one colour per stored reading. -/
theorem bar_colors_total (θ : ℚ) :
    ∀ (temps : List TempVal), (∀ t ∈ temps, t.isNum = true) →
      ∃ cs, bar_colors θ temps = some cs ∧ cs.length = temps.length := by
  intro temps
  induction temps with
  | nil => intro _; exact ⟨[], rfl, rfl⟩
  | cons t rest ih =>
    intro hall
    cases t with
    | num q =>
      obtain ⟨cs, hcs, hlen⟩ :=
        ih (fun u hu => hall u (List.mem_cons_of_mem _ hu))
      refine ⟨(if θ ≤ q then "red" else "blue") :: cs, ?_, by simp [hlen]⟩
      simp [bar_colors, hcs]
    | str sv =>
      have h := hall (TempVal.str sv) (List.mem_cons_self _ _)
      simp [TempVal.isNum] at h

end RunLemmas

section ClaimTheorems

/-- C1: at every message boundary of every run,
`len(timestamps) = len(temperatures) = total_messages`; after a run of N
accepted messages all three equal N; and a rejected message changes
nothing, so the three grow only on accepted readings. -/
theorem history_length_invariant (θ w t0 : ℚ) (inputs : List StepIn) :
    (∀ k : ℕ,
      ((runConsumer θ w (inputs.take k) (initialState t0)).1.timestamps.length
         = (runConsumer θ w (inputs.take k) (initialState t0)).1.total_messages)
      ∧ ((runConsumer θ w (inputs.take k) (initialState t0)).1.temperatures.length
         = (runConsumer θ w (inputs.take k) (initialState t0)).1.total_messages))
    ∧ ((∀ i ∈ inputs, i.msg.accepted) →
        ((runConsumer θ w inputs (initialState t0)).1.total_messages = inputs.length
         ∧ (runConsumer θ w inputs (initialState t0)).1.timestamps.length = inputs.length
         ∧ (runConsumer θ w inputs (initialState t0)).1.temperatures.length
             = inputs.length))
    ∧ (∀ (s : ConsumerState) (i : StepIn), ¬ i.msg.accepted →
        (process_message i.msg θ w i.now i.now2 s).1 = s) := by
  refine ⟨?_, ?_, ?_⟩
  · intro k
    exact runConsumer_preserve θ w
      (fun x => x.timestamps.length = x.total_messages
                ∧ x.temperatures.length = x.total_messages)
      (fun i s hs => process_message_preserves_lengths i θ w s hs)
      (inputs.take k) (initialState t0) ⟨rfl, rfl⟩
  · intro hacc
    obtain ⟨h1, h2, h3⟩ := runConsumer_accepted_counts θ w inputs hacc (initialState t0)
    refine ⟨by simpa [initialState] using h1, by simpa [initialState] using h2,
            by simpa [initialState] using h3⟩
  · intro s i hm
    rw [process_message_rejected i.msg hm θ w i.now i.now2 s]

/-- Witness for C1 at one concrete accepted message. -/
theorem history_length_invariant_witness :
    (runConsumer 90 5 [⟨Msg.obj (some "t1") (some (TempVal.num 80)), 1, 1⟩]
      (initialState 0)).1.total_messages = 1 :=
  ((history_length_invariant 90 5 0
      [⟨Msg.obj (some "t1") (some (TempVal.num 80)), 1, 1⟩]).2.1
    (by intro i hi; rw [List.mem_singleton] at hi; subst hi; trivial)).1

/-- C2: over a run of accepted numeric readings, `high_temp_count` is the
number of readings at or above the threshold, `high_temps_sum` their sum,
and the reported average (line 191) is their quotient, or 0 when no
reading was high. -/
theorem analytics_accumulator_totals (θ w t0 : ℚ) (l : List ValidIn) :
    ((runConsumer θ w (l.map ValidIn.toStep) (initialState t0)).1.high_temp_count
       = highCount θ (l.map ValidIn.temp))
    ∧ ((runConsumer θ w (l.map ValidIn.toStep) (initialState t0)).1.high_temps_sum
       = highSum θ (l.map ValidIn.temp))
    ∧ (avg_high_temp (runConsumer θ w (l.map ValidIn.toStep) (initialState t0)).1
       = if highCount θ (l.map ValidIn.temp) = 0 then 0
         else highSum θ (l.map ValidIn.temp) / (highCount θ (l.map ValidIn.temp) : ℚ)) := by
  obtain ⟨h1, h2⟩ := runConsumer_valid_analytics θ w l (initialState t0)
  have hc : (runConsumer θ w (l.map ValidIn.toStep) (initialState t0)).1.high_temp_count
      = highCount θ (l.map ValidIn.temp) := by simpa [initialState] using h1
  have hs : (runConsumer θ w (l.map ValidIn.toStep) (initialState t0)).1.high_temps_sum
      = highSum θ (l.map ValidIn.temp) := by simpa [initialState] using h2
  refine ⟨hc, hs, ?_⟩
  rw [avg_high_temp, hc, hs]
  by_cases h0 : highCount θ (l.map ValidIn.temp) = 0 <;> simp [h0]

/-- C3: a message that fails JSON decoding, or whose `timestamp` or
`temperature` field is absent or null, leaves the whole state unchanged,
produces no report and no chart redraw, does not raise to the caller
(the embedding is a total function), and the loop continues: running it
before any tail of inputs yields the tail's final state, with one no-op
output in front. -/
theorem invalid_message_noop (m : Msg) (hm : ¬ m.accepted) (θ w now now2 : ℚ)
    (s : ConsumerState) (rest : List StepIn) :
    (process_message m θ w now now2 s = (s, ⟨none, false⟩))
    ∧ (runConsumer θ w (⟨m, now, now2⟩ :: rest) s
        = ((runConsumer θ w rest s).1,
           (⟨none, false⟩ : StepOutput) :: (runConsumer θ w rest s).2)) := by
  have h := process_message_rejected m hm θ w now now2 s
  exact ⟨h, by simp only [runConsumer, h]⟩

/-- Witness for C3: a malformed message is a no-op on the initial state. -/
theorem invalid_message_noop_witness :
    process_message Msg.malformed 90 5 1 1 (initialState 0)
      = ((initialState 0), ⟨none, false⟩) :=
  (invalid_message_noop Msg.malformed (fun h => h) 90 5 1 1 (initialState 0) []).1

/-- C6 counterexample: after processing one accepted reading from the
initial state, the rolling window does not hold that reading's
temperature — nothing is ever appended to it. -/
theorem rolling_window_counterexample :
    ((process_message (Msg.obj (some "t1") (some (TempVal.num 80))) 90 5 1 1
        (initialState 0)).1.rolling_window = [])
    ∧ ((process_message (Msg.obj (some "t1") (some (TempVal.num 80))) 90 5 1 1
        (initialState 0)).1.rolling_window ≠ [TempVal.num 80]) := by
  refine ⟨?_, ?_⟩ <;>
    norm_num [process_message, initialState, bar_colors]

/-- C6 amended: the rolling-window deque created in `main` is passed to
`process_message` but never appended to nor read; every run leaves it
exactly as it started (empty, for the driver's deque). -/
theorem rolling_window_untouched (θ w : ℚ) (inputs : List StepIn)
    (s : ConsumerState) :
    (runConsumer θ w inputs s).1.rolling_window = s.rolling_window :=
  runConsumer_preserve θ w (fun x => x.rolling_window = s.rolling_window)
    (fun i x hx => (process_message_rolling_window i.msg θ w i.now i.now2 x).trans hx)
    inputs s rfl

/-- C9: the end-to-end scenario — readings 80, 95, 100 at threshold 90
give 3 total messages, 2 high readings summing to 195, and the report
fired by the third message shows an average of 97.5. -/
theorem end_to_end_scenario :
    ((runConsumer 90 5 scenarioInputs (initialState 0)).1.total_messages = 3)
    ∧ ((runConsumer 90 5 scenarioInputs (initialState 0)).1.high_temp_count = 2)
    ∧ ((runConsumer 90 5 scenarioInputs (initialState 0)).1.high_temps_sum = 195)
    ∧ ((runConsumer 90 5 scenarioInputs (initialState 0)).2
        = [⟨none, true⟩, ⟨none, true⟩, ⟨some ⟨3, (97.5 : ℚ)⟩, true⟩]) := by
  refine ⟨?_, ?_, ?_, ?_⟩ <;>
    norm_num [runConsumer, scenarioInputs, process_message, initialState,
      bar_colors, avg_high_temp]

/-- C10: a message with both fields present but a non-numeric (string)
temperature is handled non-atomically: the appends to both histories and
the bumps of `total_messages` and `window_messages` (lines 176-180) have
already happened when the comparison at line 181 raises; the exception is
caught, and the sum, count, report check and chart are never reached. -/
theorem string_temperature_partial_mutation (ts sv : String)
    (θ w now now2 : ℚ) (s : ConsumerState) :
    ((process_message (Msg.obj (some ts) (some (TempVal.str sv))) θ w now now2
        s).1.timestamps = s.timestamps ++ [ts])
    ∧ ((process_message (Msg.obj (some ts) (some (TempVal.str sv))) θ w now now2
        s).1.temperatures = s.temperatures ++ [TempVal.str sv])
    ∧ ((process_message (Msg.obj (some ts) (some (TempVal.str sv))) θ w now now2
        s).1.total_messages = s.total_messages + 1)
    ∧ ((process_message (Msg.obj (some ts) (some (TempVal.str sv))) θ w now now2
        s).1.window_messages = s.window_messages + 1)
    ∧ ((process_message (Msg.obj (some ts) (some (TempVal.str sv))) θ w now now2
        s).1.high_temps_sum = s.high_temps_sum)
    ∧ ((process_message (Msg.obj (some ts) (some (TempVal.str sv))) θ w now now2
        s).1.high_temp_count = s.high_temp_count)
    ∧ ((process_message (Msg.obj (some ts) (some (TempVal.str sv))) θ w now now2
        s).1.window_start = s.window_start)
    ∧ ((process_message (Msg.obj (some ts) (some (TempVal.str sv))) θ w now now2
        s).2.report = none)
    ∧ ((process_message (Msg.obj (some ts) (some (TempVal.str sv))) θ w now now2
        s).2.chart_drawn = false) :=
  ⟨rfl, rfl, rfl, rfl, rfl, rfl, rfl, rfl, rfl⟩

/-- Appending a numeric reading keeps a history all-numeric. -/
theorem allNum_append_num (s : ConsumerState) (q : ℚ)
    (hnum : ∀ t ∈ s.temperatures, TempVal.isNum t = true) :
    ∀ t ∈ s.temperatures ++ [TempVal.num q], TempVal.isNum t = true := by
  intro t ht
  rcases List.mem_append.1 ht with h | h
  · exact hnum t h
  · rw [List.mem_singleton] at h
    subst h
    rfl

/-- C4 counterexample: at a report, more than the elapsed-time baseline is
reset — `window_messages`, bumped to 1 by the accumulation phase, is set
back to 0 by the report block. -/
theorem report_reset_counterexample :
    (((process_message (Msg.obj (some "t1") (some (TempVal.num 100))) 90 5 10 10
        (initialState 0)).2.report).isSome = true)
    ∧ ((process_message (Msg.obj (some "t1") (some (TempVal.num 100))) 90 5 10 10
        (initialState 0)).1.window_messages
       ≠ (initialState 0).window_messages + 1) := by
  refine ⟨?_, ?_⟩ <;>
    norm_num [process_message, initialState, bar_colors, avg_high_temp]

/-- C4 amended: when a report is emitted, the step resets the elapsed-time
baseline and the `window_messages` counter, and leaves `total_messages`,
`high_temps_sum` and `high_temp_count` at their accumulated values — they
keep growing for the lifetime of the process. -/
theorem report_preserves_accumulators (θ w now now2 q : ℚ) (ts : String)
    (s : ConsumerState)
    (hrep : ((process_message (Msg.obj (some ts) (some (TempVal.num q))) θ w now
        now2 s).2.report).isSome = true) :
    ((process_message (Msg.obj (some ts) (some (TempVal.num q))) θ w now now2
        s).1.total_messages = s.total_messages + 1)
    ∧ ((process_message (Msg.obj (some ts) (some (TempVal.num q))) θ w now now2
        s).1.high_temp_count = s.high_temp_count + (if θ ≤ q then 1 else 0))
    ∧ ((process_message (Msg.obj (some ts) (some (TempVal.num q))) θ w now now2
        s).1.high_temps_sum = s.high_temps_sum + (if θ ≤ q then q else 0))
    ∧ ((process_message (Msg.obj (some ts) (some (TempVal.num q))) θ w now now2
        s).1.window_messages = 0)
    ∧ ((process_message (Msg.obj (some ts) (some (TempVal.num q))) θ w now now2
        s).1.window_start = now2) := by
  obtain ⟨-, -, h3, h4, h5, -⟩ := process_message_num_core ts q θ w now now2 s
  have hwin :
      ((process_message (Msg.obj (some ts) (some (TempVal.num q))) θ w now now2
          s).1.window_messages = 0)
      ∧ ((process_message (Msg.obj (some ts) (some (TempVal.num q))) θ w now now2
          s).1.window_start = now2) := by
    simp only [process_message] at hrep ⊢
    by_cases hq : θ ≤ q <;>
      simp only [hq, ite_true, ite_false] at hrep ⊢ <;>
      rcases hbc : bar_colors θ (s.temperatures ++ [TempVal.num q]) with _ | cs <;>
      simp [hbc] at hrep ⊢ <;>
      by_cases hw : w ≤ now - s.window_start <;>
      simp [hw] at hrep ⊢
  exact ⟨h3, h4, h5, hwin.1, hwin.2⟩

/-- Witness for C4 at one concrete report-firing step. -/
theorem report_preserves_accumulators_witness :
    (process_message (Msg.obj (some "t") (some (TempVal.num 100))) 90 5 10 11
      (initialState 0)).1.window_start = 11 :=
  (report_preserves_accumulators 90 5 10 11 100 "t" (initialState 0)
    (by norm_num [process_message, initialState, bar_colors, avg_high_temp])).2.2.2.2

/-- C5 counterexample: a report fires (the window has elapsed) and yet
`high_temp_count` and `high_temps_sum` are not set back to zero — they
keep the accumulated values 1 and 95. -/
theorem window_reset_counterexample :
    ((5 : ℚ) ≤ 20 - (initialState 0).window_start)
    ∧ (((process_message (Msg.obj (some "a") (some (TempVal.num 95))) 90 5 20 20
        (initialState 0)).2.report).isSome = true)
    ∧ ((process_message (Msg.obj (some "a") (some (TempVal.num 95))) 90 5 20 20
        (initialState 0)).1.high_temp_count = 1)
    ∧ ((process_message (Msg.obj (some "a") (some (TempVal.num 95))) 90 5 20 20
        (initialState 0)).1.high_temps_sum = 95) := by
  refine ⟨?_, ?_, ?_, ?_⟩ <;>
    norm_num [process_message, initialState, bar_colors, avg_high_temp]

/-- C5 amended: when the elapsed time since `window_start` reaches the
window size at an accepted numeric reading, only `window_messages` and
`window_start` are reset; `high_temp_count` and `high_temps_sum` keep
their accumulated values and are never zeroed. -/
theorem window_reset_scope (θ w now now2 q : ℚ) (ts : String)
    (s : ConsumerState)
    (hnum : ∀ t ∈ s.temperatures, TempVal.isNum t = true)
    (hfire : w ≤ now - s.window_start) :
    ((process_message (Msg.obj (some ts) (some (TempVal.num q))) θ w now now2
        s).1.window_messages = 0)
    ∧ ((process_message (Msg.obj (some ts) (some (TempVal.num q))) θ w now now2
        s).1.window_start = now2)
    ∧ ((process_message (Msg.obj (some ts) (some (TempVal.num q))) θ w now now2
        s).1.high_temp_count = s.high_temp_count + (if θ ≤ q then 1 else 0))
    ∧ ((process_message (Msg.obj (some ts) (some (TempVal.num q))) θ w now now2
        s).1.high_temps_sum = s.high_temps_sum + (if θ ≤ q then q else 0)) := by
  obtain ⟨-, -, -, h4, h5, -⟩ := process_message_num_core ts q θ w now now2 s
  obtain ⟨cs, hcs, -⟩ :=
    bar_colors_total θ (s.temperatures ++ [TempVal.num q])
      (allNum_append_num s q hnum)
  have hwin :
      ((process_message (Msg.obj (some ts) (some (TempVal.num q))) θ w now now2
          s).1.window_messages = 0)
      ∧ ((process_message (Msg.obj (some ts) (some (TempVal.num q))) θ w now now2
          s).1.window_start = now2) := by
    simp only [process_message]
    by_cases hq : θ ≤ q <;>
      simp only [hq, ite_true, ite_false] <;>
      simp [hcs, hfire]
  exact ⟨hwin.1, hwin.2, h4, h5⟩

/-- Witness for C5 at one concrete window-elapsed step. -/
theorem window_reset_scope_witness :
    (process_message (Msg.obj (some "b") (some (TempVal.num 50))) 90 5 30 31
      (initialState 0)).1.window_start = 31 :=
  (window_reset_scope 90 5 30 31 50 "b" (initialState 0)
    (by intro t ht; exact absurd ht (List.not_mem_nil t))
    (by norm_num [initialState])).2.1

/-- C7 counterexample: the window has long elapsed, yet a malformed
message — or a message with a missing field — produces no report: no
analytics block is printed unless a valid reading is being processed. -/
theorem report_timer_counterexample :
    ((5 : ℚ) ≤ 1000 - (initialState 0).window_start)
    ∧ ((process_message Msg.malformed 90 5 1000 1000
        (initialState 0)).2.report = none)
    ∧ ((process_message (Msg.obj (some "t") none) 90 5 1000 1000
        (initialState 0)).2.report = none) := by
  refine ⟨?_, ?_, ?_⟩ <;> norm_num [process_message, initialState]

/-- C7 amended: over an all-numeric history, a step emits a report exactly
when its message is an accepted numeric reading and the wall-clock time at
the check is at least one window size past `window_start`; without such a
message no report is produced, however much time has passed. -/
theorem report_requires_accepted_message (θ w now now2 : ℚ) (m : Msg)
    (s : ConsumerState)
    (hnum : ∀ t ∈ s.temperatures, TempVal.isNum t = true) :
    (((process_message m θ w now now2 s).2.report).isSome = true)
    ↔ ((∃ ts q, m = Msg.obj (some ts) (some (TempVal.num q)))
        ∧ w ≤ now - s.window_start) := by
  cases m with
  | malformed => simp [process_message]
  | obj ts temp =>
    cases ts with
    | none => cases temp <;> simp [process_message]
    | some a =>
      cases temp with
      | none => simp [process_message]
      | some t =>
        cases t with
        | str sv => simp [process_message_str]
        | num q =>
          obtain ⟨cs, hcs, -⟩ :=
            bar_colors_total θ (s.temperatures ++ [TempVal.num q])
              (allNum_append_num s q hnum)
          constructor
          · intro hrep
            refine ⟨⟨a, q, rfl⟩, ?_⟩
            by_contra hw
            simp only [process_message] at hrep
            by_cases hq : θ ≤ q <;>
              simp [hq, hcs, hw] at hrep
          · rintro ⟨-, hw⟩
            simp only [process_message]
            by_cases hq : θ ≤ q <;> simp [hq, hcs, hw]

/-- Witness for C7 at one concrete accepted reading past the window. -/
theorem report_requires_accepted_message_witness :
    (((process_message (Msg.obj (some "x") (some (TempVal.num 100))) 90 5 10 10
        (initialState 0)).2.report).isSome = true)
    ↔ ((∃ ts q, Msg.obj (some "x") (some (TempVal.num 100))
          = Msg.obj (some ts) (some (TempVal.num q)))
        ∧ (5 : ℚ) ≤ 10 - (initialState 0).window_start) :=
  report_requires_accepted_message 90 5 10 10
    (Msg.obj (some "x") (some (TempVal.num 100))) (initialState 0)
    (by intro t ht; exact absurd ht (List.not_mem_nil t))

/-- C8: bar colours are monotone in the threshold — with `t1 ≤ t2`, every
bar the line-128 comprehension paints "blue" (base colour) at threshold
`t1` is painted "blue" at `t2` as well, so raising the threshold can only
turn bars from "red" to "blue", never the reverse. -/
theorem bar_colors_monotone_threshold (temps : List TempVal) (t1 t2 : ℚ)
    (h12 : t1 ≤ t2) (cs1 cs2 : List String)
    (h1 : bar_colors t1 temps = some cs1) (h2 : bar_colors t2 temps = some cs2)
    (i : ℕ) (hi1 : i < cs1.length) (hi2 : i < cs2.length)
    (hbase : cs1.get ⟨i, hi1⟩ = "blue") :
    cs2.get ⟨i, hi2⟩ = "blue" := by
  induction temps generalizing cs1 cs2 i with
  | nil =>
    rw [bar_colors] at h1
    cases h1
    exact absurd hi1 (by simp)
  | cons t rest ih =>
    cases t with
    | str sv =>
      rw [bar_colors] at h1
      exact Option.noConfusion h1
    | num q =>
      rw [bar_colors] at h1 h2
      rcases Option.map_eq_some'.1 h1 with ⟨cs1t, hcs1, rfl⟩
      rcases Option.map_eq_some'.1 h2 with ⟨cs2t, hcs2, rfl⟩
      cases i with
      | zero =>
        simp only [List.get] at hbase ⊢
        by_cases hq : t1 ≤ q
        · rw [if_pos hq] at hbase
          exact absurd hbase (by decide)
        · have hq2 : ¬ t2 ≤ q := fun h => hq (le_trans h12 h)
          rw [if_neg hq2]
      | succ n =>
        simp only [List.get] at hbase ⊢
        exact ih cs1t cs2t hcs1 hcs2 n (Nat.lt_of_succ_lt_succ (by simpa using hi1))
          (Nat.lt_of_succ_lt_succ (by simpa using hi2)) hbase

/-- Witness for C8 at one concrete reading and threshold pair. -/
theorem bar_colors_monotone_threshold_witness :
    (["blue"] : List String).get ⟨0, by norm_num⟩ = "blue" :=
  bar_colors_monotone_threshold [TempVal.num 80] 85 90 (by norm_num)
    ["blue"] ["blue"]
    (by norm_num [bar_colors]) (by norm_num [bar_colors])
    0 (by norm_num) (by norm_num) rfl

end ClaimTheorems
